import Mathlib

/-!
Shallow embedding of the armiarma crawler's peer-metrics core
(`src/metrics/peer.go` and the libp2p host manager's event channels),
together with proofs of the specified properties.

Modelling conventions:
* Go strings are Lean `String`s; character-level facts use `String.data`.
* `time.Time` instants are modelled as `Int` nanoseconds since epoch;
  `t1.Sub t0` is integer subtraction and `Duration.Milliseconds` is
  truncating (toward-zero) division by 1 000 000, i.e. `Int.tdiv`.
* Go `uint64` counters are modelled as `Nat`: no claim exercises values
  anywhere near `2^64`, so wraparound is immaterial here.
* Go `float64` values and arithmetic are modelled as exact rationals
  (`ℚ`); decimal renderings of floats are modelled as fixed-point decimal
  renderings.  No claim depends on the exact digits Go would print, only
  on the shape of the rendering (sign, digits, one dot) and on its being
  free of commas and newlines.
-/

namespace Armiarma

/-- Rendering of a `Bool` as Go's `strconv.FormatBool`: the literal
strings `true` / `false`. -/
def formatBool : Bool → String
  | true => "true"
  | false => "false"

/-- Fuelled accumulator loop producing the base-10 digits of `n` in order,
in front of `acc`.  The fuel `n + 1` always suffices. -/
def toDigitsAux : Nat → Nat → List Char → List Char
  | 0, _, acc => acc
  | fuel + 1, n, acc =>
    if n < 10 then Nat.digitChar n :: acc
    else toDigitsAux fuel (n / 10) (Nat.digitChar (n % 10) :: acc)

/-- Rendering of a `Nat` in base 10, as Go's `strconv.FormatUint(x, 10)`
(and `fmt.Sprintf("%d", ...)` on lengths). -/
def formatUint (n : Nat) : String :=
  ⟨toDigitsAux (n + 1) n []⟩

/-- Rendering of an `Int` in base 10: minus sign for negatives followed by
the digits of the absolute value. -/
def intRepr (i : Int) : String :=
  if i < 0 then "-" ++ formatUint i.natAbs else formatUint i.natAbs

/-- Left-pad the fractional part to exactly three digits. -/
def padTo3 (m : Nat) : String :=
  if m < 10 then "00" ++ formatUint m
  else if m < 100 then "0" ++ formatUint m
  else formatUint m

/-- Rendering of a rational with exactly three decimal places, modelling
Go's `fmt.Sprintf("%.3f", x)` on a `float64`: round to the nearest
thousandth and print `intpart.fracpart` with the fraction padded to three
digits.  (Go rounds the binary double correctly to three decimals; the
tie-breaking rule is immaterial to every claim, which only use the shape
of the rendering.) -/
def formatFixed3 (q : ℚ) : String :=
  let n : Int := ⌊q * 1000 + 1 / 2⌋
  let a : Nat := n.natAbs
  (if n < 0 then "-" else "") ++ formatUint (a / 1000) ++ "." ++ padTo3 (a % 1000)

/-- Rendering of a rational modelling Go's `fmt.Sprint` on a `float64`
(`%v`, shortest decimal form).  Integral values print with no decimal
point, exactly as Go does; for non-integral values Go prints a shortest
decimal representation, which we model with the three-decimal rendering.
No claim depends on these digits, only on the absence of commas and
newlines, which holds for Go's rendering and for this model. -/
def sprintFloat (q : ℚ) : String :=
  if q.den = 1 then intRepr q.num else formatFixed3 q

/-- Go's `time.Duration.Milliseconds()`: truncating (toward-zero) division
of a nanosecond count by 1 000 000. -/
def millisecondsOf (d : Int) : Int :=
  Int.tdiv d 1000000

/-- Modelled from the spec: the Message Metrics Counter entity
(`MessageMetrics` / `NewMessageMetrics`), whose source file is not under
`src/`.  Per the spec: `Count` is a non-negative integer, created zero,
incremented only. -/
structure MessageMetrics where
  Count : Nat
deriving DecidableEq, Repr

/-- Modelled from the spec: a fresh counter starts at zero. -/
def NewMessageMetrics : MessageMetrics := ⟨0⟩

/-- Modelled from the spec: `Increment()` is the only mutator. -/
def MessageMetrics.Increment (m : MessageMetrics) : MessageMetrics :=
  ⟨m.Count + 1⟩

/-- Character-list prefix test (helper for the modelled error normalizer). -/
def hasPrefixChars : List Char → List Char → Bool
  | [], _ => true
  | _ :: _, [] => false
  | p :: ps, c :: cs => p = c && hasPrefixChars ps cs

/-- Character-list substring test (helper for the modelled error
normalizer). -/
def containsChars (pat : List Char) : List Char → Bool
  | [] => hasPrefixChars pat []
  | c :: cs => hasPrefixChars pat (c :: cs) || containsChars pat cs

/-- Modelled from the spec: the Error Normalizer (`utils.FilterError`),
whose source file is not under `src/`.  Per the spec (§4.4): an ordered
pattern table over the raw error text, first match wins, mapping into a
small closed category set; unmatched text falls through to a category
that retains the raw text.  The specific pattern table is an
implementation choice; this model fixes one such table. -/
def FilterError (err : String) : String :=
  if containsChars "timeout".data err.data then "timeout"
  else if containsChars "connection refused".data err.data then "connection refused"
  else if containsChars "protocol not supported".data err.data then "protocol not supported"
  else if containsChars "no route to host".data err.data then "no route to host"
  else err

namespace pgossip

/-- Gossip topic identifier from the external library
`protolambda/rumor/p2p/gossip`.  The exact string values live outside
this repository; they are modelled here as the five distinct topic names
of that library — only their distinctness is relied on. -/
def BeaconBlock : String := "beacon_block"

/-- Gossip topic identifier (external library), see `pgossip.BeaconBlock`. -/
def BeaconAggregateProof : String := "beacon_aggregate_and_proof"

/-- Gossip topic identifier (external library), see `pgossip.BeaconBlock`. -/
def VoluntaryExit : String := "voluntary_exit"

/-- Gossip topic identifier (external library), see `pgossip.BeaconBlock`. -/
def ProposerSlashing : String := "proposer_slashing"

/-- Gossip topic identifier (external library), see `pgossip.BeaconBlock`. -/
def AttesterSlashing : String := "attester_slashing"

end pgossip

/-- The per-peer metrics entity, translated field-for-field from the Go
struct `Peer` in `src/metrics/peer.go`.  `time.Time` instants are `Int`
nanoseconds, `uint64` counters are `Nat`, `float64` is `ℚ`. -/
structure Peer where
  PeerId : String
  NodeId : String
  UserAgent : String
  ClientName : String
  ClientOS : String
  ClientVersion : String
  Pubkey : String
  Addrs : String
  Ip : String
  Country : String
  City : String
  Latency : ℚ
  ConnectedDirection : String
  IsConnected : Bool
  Attempted : Bool
  Succeed : Bool
  Attempts : Nat
  Error : String
  ConnectionTimes : List Int
  DisconnectionTimes : List Int
  MetadataRequest : Bool
  MetadataSucceed : Bool
  LastExport : Int
  BeaconBlock : MessageMetrics
  BeaconAggregateProof : MessageMetrics
  VoluntaryExit : MessageMetrics
  ProposerSlashing : MessageMetrics
  AttesterSlashing : MessageMetrics
deriving DecidableEq, Repr

/-- `NewPeer` from the source: fields set as in the Go literal; the Go
fields the literal leaves out (`ClientName`, `ClientOS`, `ClientVersion`,
`ConnectedDirection` is set explicitly, ...) take Go's zero values. -/
def NewPeer (peerId : String) : Peer where
  PeerId := peerId
  NodeId := ""
  UserAgent := ""
  ClientName := ""
  ClientOS := ""
  ClientVersion := ""
  Pubkey := ""
  Addrs := ""
  Ip := ""
  Country := ""
  City := ""
  Latency := 0
  ConnectedDirection := ""
  IsConnected := false
  Attempted := false
  Succeed := false
  Attempts := 0
  Error := "None"
  ConnectionTimes := []
  DisconnectionTimes := []
  MetadataRequest := false
  MetadataSucceed := false
  LastExport := 0
  BeaconBlock := NewMessageMetrics
  BeaconAggregateProof := NewMessageMetrics
  VoluntaryExit := NewMessageMetrics
  ProposerSlashing := NewMessageMetrics
  AttesterSlashing := NewMessageMetrics

/-- `ResetDynamicMetrics` from the source: zero `Attempts` and replace the
five topic counters with fresh zero counters. -/
def Peer.ResetDynamicMetrics (pm : Peer) : Peer :=
  { pm with
    Attempts := 0
    BeaconBlock := NewMessageMetrics
    BeaconAggregateProof := NewMessageMetrics
    VoluntaryExit := NewMessageMetrics
    ProposerSlashing := NewMessageMetrics
    AttesterSlashing := NewMessageMetrics }

/-- `GetAllMessagesCount` from the source: the sum of the five topic
counters (in the source's summand order). -/
def Peer.GetAllMessagesCount (pm : Peer) : Nat :=
  pm.BeaconBlock.Count +
    pm.BeaconAggregateProof.Count +
    pm.VoluntaryExit.Count +
    pm.AttesterSlashing.Count +
    pm.ProposerSlashing.Count

/-- `AddConnectionEvent` from the source: append the instant to
`ConnectionTimes`, set `IsConnected`, record the direction. -/
def Peer.AddConnectionEvent (pm : Peer) (direction : String) (time : Int) : Peer :=
  { pm with
    ConnectionTimes := pm.ConnectionTimes ++ [time]
    IsConnected := true
    ConnectedDirection := direction }

/-- `AddDisconnectionEvent` from the source: append the instant to
`DisconnectionTimes`, clear `IsConnected` and the direction. -/
def Peer.AddDisconnectionEvent (pm : Peer) (time : Int) : Peer :=
  { pm with
    DisconnectionTimes := pm.DisconnectionTimes ++ [time]
    IsConnected := false
    ConnectedDirection := "" }

/-- `AddNewConnectionAttempt` from the source: bump `Attempts`, make
`Attempted` sticky-true; on success set `Succeed` and the `"None"` error
sentinel, on failure store the normalized error. -/
def Peer.AddNewConnectionAttempt (pm : Peer) (succeed : Bool) (err : String) : Peer :=
  let pm := { pm with Attempts := pm.Attempts + 1 }
  let pm := if pm.Attempted then pm else { pm with Attempted := true }
  if succeed then { pm with Succeed := succeed, Error := "None" }
  else { pm with Error := FilterError err }

/-- The inner loop of `GetConnectedTime` for one connection instant
`conTime`: scan the disconnection instants in recorded order; the first
whose millisecond-truncated difference is non-negative contributes that
truncated difference and stops the scan (the source's `break`); if none
does, the instant contributes nothing. -/
def connectionContribution (conTime : Int) : List Int → Int
  | [] => 0
  | discTime :: rest =>
    let singleConnectionTime := millisecondsOf (discTime - conTime)
    if 0 ≤ singleConnectionTime then singleConnectionTime
    else connectionContribution conTime rest

/-- The accumulator of `GetConnectedTime`: `totalConnectedTime`, in whole
milliseconds, after both loops have run. -/
def totalConnectedMillis (pm : Peer) : Int :=
  pm.ConnectionTimes.foldl
    (fun total conTime => total + connectionContribution conTime pm.DisconnectionTimes) 0

/-- `GetConnectedTime` from the source: the millisecond total divided by
60 000, yielding minutes.  The Go `float64` division is modelled as exact
division in `ℚ`. -/
def Peer.GetConnectedTime (pm : Peer) : ℚ :=
  (totalConnectedMillis pm : ℚ) / 60000

/-- The five counter fields a topic name can resolve to.  The source's
`GetMessageMetrics` returns a pointer into the `Peer`; returning a
pointer is modelled as returning the selector of the addressed field. -/
inductive TopicId
  | beaconBlock
  | beaconAggregateProof
  | voluntaryExit
  | proposerSlashing
  | attesterSlashing
deriving DecidableEq, Repr

/-- `GetMessageMetrics` from the source: the `switch` over the five topic
strings of the external gossip library, in source order; any other name
yields the `unknown topic name` error. -/
def GetMessageMetrics (topicName : String) : Except String TopicId :=
  if topicName = pgossip.BeaconBlock then .ok .beaconBlock
  else if topicName = pgossip.BeaconAggregateProof then .ok .beaconAggregateProof
  else if topicName = pgossip.VoluntaryExit then .ok .voluntaryExit
  else if topicName = pgossip.ProposerSlashing then .ok .proposerSlashing
  else if topicName = pgossip.AttesterSlashing then .ok .attesterSlashing
  else .error ("unknown topic name: " ++ topicName)

/-- Increment the counter field addressed by a `TopicId`. -/
def incrementTopic (pm : Peer) : TopicId → Peer
  | .beaconBlock => { pm with BeaconBlock := pm.BeaconBlock.Increment }
  | .beaconAggregateProof => { pm with BeaconAggregateProof := pm.BeaconAggregateProof.Increment }
  | .voluntaryExit => { pm with VoluntaryExit := pm.VoluntaryExit.Increment }
  | .proposerSlashing => { pm with ProposerSlashing := pm.ProposerSlashing.Increment }
  | .attesterSlashing => { pm with AttesterSlashing := pm.AttesterSlashing.Increment }

/-- The spec's `CountMessage(topic)`: resolve the topic through the
source's `GetMessageMetrics` and increment the resolved counter (the
increment through the returned pointer happens at the caller, outside
`src/`; it is modelled from the spec).  On an unknown topic the error is
propagated and no state is produced. -/
def Peer.CountMessage (pm : Peer) (topicName : String) : Except String Peer :=
  match GetMessageMetrics topicName with
  | .ok t => .ok (incrementTopic pm t)
  | .error e => .error e

/-- `ToCsvLine` from the source: the comma-joined, newline-terminated
concatenation of the 27 field renderings, with no quoting or escaping. -/
def Peer.ToCsvLine (pm : Peer) : String :=
  pm.PeerId ++ "," ++
    pm.NodeId ++ "," ++
    pm.UserAgent ++ "," ++
    pm.ClientName ++ "," ++
    pm.ClientVersion ++ "," ++
    pm.Pubkey ++ "," ++
    pm.Addrs ++ "," ++
    pm.Ip ++ "," ++
    pm.Country ++ "," ++
    pm.City ++ "," ++
    formatBool pm.MetadataRequest ++ "," ++
    formatBool pm.MetadataSucceed ++ "," ++
    formatBool pm.Attempted ++ "," ++
    formatBool pm.Succeed ++ "," ++
    formatBool pm.IsConnected ++ "," ++
    formatUint pm.Attempts ++ "," ++
    pm.Error ++ "," ++
    sprintFloat pm.Latency ++ "," ++
    formatUint pm.ConnectionTimes.length ++ "," ++
    formatUint pm.DisconnectionTimes.length ++ "," ++
    formatFixed3 pm.GetConnectedTime ++ "," ++
    formatUint pm.BeaconBlock.Count ++ "," ++
    formatUint pm.BeaconAggregateProof.Count ++ "," ++
    formatUint pm.VoluntaryExit.Count ++ "," ++
    formatUint pm.ProposerSlashing.Count ++ "," ++
    formatUint pm.AttesterSlashing.Count ++ "," ++
    formatUint pm.GetAllMessagesCount ++ "\n"

/-- Modelled from the spec and Go channel semantics (the channel runtime
is an external collaborator): a bounded FIFO queue of fixed capacity.
`buf` holds the queued values, oldest first. -/
structure BoundedChan (α : Type) where
  cap : Nat
  buf : List α
deriving Repr

/-- Modelled from the spec: a blocking send (`ch <- v`) appends at the
tail when the buffer is below capacity; at capacity there is no
transition — `none` models the calling thread being blocked until a
dequeue makes room. -/
def BoundedChan.send (c : BoundedChan α) (a : α) : Option (BoundedChan α) :=
  if c.buf.length < c.cap then some { c with buf := c.buf ++ [a] } else none

/-- Modelled from the spec: a blocking receive (`<-ch`) takes the oldest
value from the head of the buffer; on an empty buffer there is no
transition — `none` models the consumer being blocked. -/
def BoundedChan.recv (c : BoundedChan α) : Option (α × BoundedChan α) :=
  match c.buf with
  | [] => none
  | x :: rest => some (x, { c with buf := rest })

/-- `ConnNotChannSize` from the source (`hosts` package): the default
capacity of both notification channels. -/
def ConnNotChannSize : Nat := 200

/-- The libp2p host wrapper from the source, restricted to the state the
claims are about: its two bounded notification channels.  The remaining
fields of the Go struct (`context.Context`, `host.Host`, the identify
service, DB and geolocation clients, multiaddresses) are opaque handles
into external collaborators and carry no state any claim mentions.  The
event payload types (`models.EventTrace`, `IdentificationEvent`) live
outside `src/` and are type parameters. -/
structure BasicLibp2pHost (E I : Type) where
  connEventNotChannel : BoundedChan E
  identNotChannel : BoundedChan I

/-- The channel-relevant part of `NewBasicLibp2pEth2Host`: both
notification channels are created empty with capacity
`ConnNotChannSize`. -/
def NewBasicLibp2pEth2Host (E I : Type) : BasicLibp2pHost E I :=
  { connEventNotChannel := { cap := ConnNotChannSize, buf := [] }
    identNotChannel := { cap := ConnNotChannSize, buf := [] } }

/-- `RecConnEvent` from the source: send the event trace on the
connection-event channel (blocking when full, modelled as `none`). -/
def RecConnEvent (b : BasicLibp2pHost E I) (eventTrace : E) : Option (BasicLibp2pHost E I) :=
  (b.connEventNotChannel.send eventTrace).map
    fun q => { b with connEventNotChannel := q }

/-- `RecIdentEvent` from the source: send the identification event on the
identification channel (blocking when full, modelled as `none`). -/
def RecIdentEvent (b : BasicLibp2pHost E I) (identEvent : I) : Option (BasicLibp2pHost E I) :=
  (b.identNotChannel.send identEvent).map
    fun q => { b with identNotChannel := q }

/-!
Definitions written from the claims' words, for comparison with the
source functions above.
-/

/-- The 27 field renderings of the CSV export line, in the documented
order, as a list. -/
def csvFields (pm : Peer) : List String :=
  [pm.PeerId, pm.NodeId, pm.UserAgent, pm.ClientName, pm.ClientVersion,
    pm.Pubkey, pm.Addrs, pm.Ip, pm.Country, pm.City,
    formatBool pm.MetadataRequest, formatBool pm.MetadataSucceed,
    formatBool pm.Attempted, formatBool pm.Succeed, formatBool pm.IsConnected,
    formatUint pm.Attempts, pm.Error, sprintFloat pm.Latency,
    formatUint pm.ConnectionTimes.length, formatUint pm.DisconnectionTimes.length,
    formatFixed3 pm.GetConnectedTime,
    formatUint pm.BeaconBlock.Count, formatUint pm.BeaconAggregateProof.Count,
    formatUint pm.VoluntaryExit.Count, formatUint pm.ProposerSlashing.Count,
    formatUint pm.AttesterSlashing.Count, formatUint pm.GetAllMessagesCount]

/-- Split a character list at every comma (the claims' "splitting the
line on commas"). -/
def splitComma : List Char → List (List Char)
  | [] => [[]]
  | c :: rest =>
    if c = ',' then [] :: splitComma rest
    else
      match splitComma rest with
      | [] => [[c]]
      | h :: t => (c :: h) :: t

/-- The total number of commas occurring inside the eleven string-valued
fields that `ToCsvLine` emits verbatim. -/
def stringFieldCommas (pm : Peer) : Nat :=
  pm.PeerId.data.count ',' + pm.NodeId.data.count ',' +
    pm.UserAgent.data.count ',' + pm.ClientName.data.count ',' +
    pm.ClientVersion.data.count ',' + pm.Pubkey.data.count ',' +
    pm.Addrs.data.count ',' + pm.Ip.data.count ',' +
    pm.Country.data.count ',' + pm.City.data.count ',' +
    pm.Error.data.count ','

/-- Written from the claim's words (C1): for one connection instant `c`,
scan the disconnection instants in recorded order and let the FIRST `d`
with `d - c` non-negative contribute, the scan stopping there; the
contribution is converted to whole milliseconds on the source's scale. -/
def specConnectionContribution (conTime : Int) : List Int → Int
  | [] => 0
  | discTime :: rest =>
    if 0 ≤ discTime - conTime then millisecondsOf (discTime - conTime)
    else specConnectionContribution conTime rest

/-- Written from the claim's words (C1): the first-match totals summed
over the connection instants in recorded order, in whole milliseconds. -/
def specConnectedMillis (pm : Peer) : Int :=
  pm.ConnectionTimes.foldl
    (fun total conTime => total + specConnectionContribution conTime pm.DisconnectionTimes) 0

/-- Written from the claim's words (C1): the first-match total converted
to minutes on the source's scale. -/
def specGetConnectedTime (pm : Peer) : ℚ :=
  (specConnectedMillis pm : ℚ) / 60000

/-- The amended first-match rule (C1 corrected): the first `d` whose
difference `d - c` TRUNCATED TO WHOLE MILLISECONDS is non-negative
(equivalently `d - c > -1` ms) contributes that truncated difference. -/
def amendedConnectionContribution (conTime : Int) : List Int → Int
  | [] => 0
  | discTime :: rest =>
    if 0 ≤ millisecondsOf (discTime - conTime) then millisecondsOf (discTime - conTime)
    else amendedConnectionContribution conTime rest

/-- The amended reconciliation total (C1 corrected), in whole
milliseconds. -/
def amendedConnectedMillis (pm : Peer) : Int :=
  pm.ConnectionTimes.foldl
    (fun total conTime => total + amendedConnectionContribution conTime pm.DisconnectionTimes) 0

/-- The amended reconciliation total (C1 corrected), in minutes. -/
def amendedGetConnectedTime (pm : Peer) : ℚ :=
  (amendedConnectedMillis pm : ℚ) / 60000

/-- The peer mutators, reified as a type of operations so that claims
about "any sequence of the peer's operations" can quantify over
sequences. -/
inductive PeerOp
  | addConnectionEvent (direction : String) (time : Int)
  | addDisconnectionEvent (time : Int)
  | addNewConnectionAttempt (succeed : Bool) (err : String)
  | resetDynamicMetrics
  | countMessage (topicName : String)

/-- Apply one operation to a peer.  `countMessage` on an unknown topic
fails without mutating, so the peer is returned unchanged. -/
def PeerOp.apply (pm : Peer) : PeerOp → Peer
  | .addConnectionEvent direction time => pm.AddConnectionEvent direction time
  | .addDisconnectionEvent time => pm.AddDisconnectionEvent time
  | .addNewConnectionAttempt succeed err => pm.AddNewConnectionAttempt succeed err
  | .resetDynamicMetrics => pm.ResetDynamicMetrics
  | .countMessage topicName =>
    match pm.CountMessage topicName with
    | .ok pm2 => pm2
    | .error _ => pm

/-- Apply a sequence of operations left to right. -/
def applyOps (ops : List PeerOp) (pm : Peer) : Peer :=
  ops.foldl PeerOp.apply pm

/-- Apply a sequence of `AddNewConnectionAttempt` calls, given as
(succeed, rawError) pairs, left to right. -/
def applyAttempts (calls : List (Bool × String)) (pm : Peer) : Peer :=
  calls.foldl (fun p c => p.AddNewConnectionAttempt c.1 c.2) pm

/-!
Helper lemmas shared by the claim theorems.
-/

lemma addNewConnectionAttempt_fields (pm : Peer) (succeed : Bool) (err : String) :
    (pm.AddNewConnectionAttempt succeed err).Attempts = pm.Attempts + 1 ∧
      (pm.AddNewConnectionAttempt succeed err).Attempted = true ∧
      (pm.AddNewConnectionAttempt succeed err).Error =
        (if succeed then "None" else FilterError err) ∧
      (pm.AddNewConnectionAttempt succeed err).Succeed = (succeed || pm.Succeed) := by
  cases succeed <;> cases hA : pm.Attempted <;>
    simp [Peer.AddNewConnectionAttempt, hA]

lemma applyAttempts_attempts (calls : List (Bool × String)) :
    ∀ pm : Peer, (applyAttempts calls pm).Attempts = pm.Attempts + calls.length := by
  induction calls with
  | nil => intro pm; rfl
  | cons c rest ih =>
    intro pm
    show (applyAttempts rest (pm.AddNewConnectionAttempt c.1 c.2)).Attempts = _
    rw [ih, (addNewConnectionAttempt_fields pm c.1 c.2).1, List.length_cons]
    omega

lemma applyAttempts_attempted_mono (calls : List (Bool × String)) :
    ∀ pm : Peer, pm.Attempted = true → (applyAttempts calls pm).Attempted = true := by
  induction calls with
  | nil => intro pm h; exact h
  | cons c rest ih =>
    intro pm _
    exact ih (pm.AddNewConnectionAttempt c.1 c.2)
      (addNewConnectionAttempt_fields pm c.1 c.2).2.1

lemma incrementTopic_attempted (pm : Peer) (t : TopicId) :
    (incrementTopic pm t).Attempted = pm.Attempted := by
  cases t <;> rfl

lemma peerOp_apply_attempted_mono (pm : Peer) (op : PeerOp) (h : pm.Attempted = true) :
    (PeerOp.apply pm op).Attempted = true := by
  cases op with
  | addConnectionEvent direction time => exact h
  | addDisconnectionEvent time => exact h
  | addNewConnectionAttempt succeed err =>
    exact (addNewConnectionAttempt_fields pm succeed err).2.1
  | resetDynamicMetrics => exact h
  | countMessage topicName =>
    show (match pm.CountMessage topicName with
      | .ok pm2 => pm2
      | .error _ => pm).Attempted = true
    cases hG : GetMessageMetrics topicName with
    | ok t => simpa [Peer.CountMessage, hG, incrementTopic_attempted] using h
    | error e => simpa [Peer.CountMessage, hG] using h

lemma applyOps_attempted_mono (ops : List PeerOp) :
    ∀ pm : Peer, pm.Attempted = true → (applyOps ops pm).Attempted = true := by
  induction ops with
  | nil => intro pm h; exact h
  | cons op rest ih =>
    intro pm h
    exact ih (PeerOp.apply pm op) (peerOp_apply_attempted_mono pm op h)

/-!
Claim theorems.
-/

/-- C3 counterexample: on a successful attempt the code stores the
sentinel `"None"` (capitalized, as `NewPeer` also does), not the claimed
lowercase `"none"`. -/
theorem addNewConnectionAttempt_sentinel_counterexample :
    ((NewPeer "p").AddNewConnectionAttempt true "").Error = "None" ∧
      ((NewPeer "p").AddNewConnectionAttempt true "").Error ≠ "none" := by
  constructor
  · rfl
  · decide

/-- C3 (amended): `AddNewConnectionAttempt(succeeded, rawError)`
increments `Attempts` by 1, makes `Attempted` true, on success sets
`Succeed` and stores the sentinel `"None"` (capitalized), and on failure
stores the normalized error while leaving a prior `Succeed = true`
intact (`Succeed` becomes `succeeded || old Succeed`). -/
theorem addNewConnectionAttempt_spec (pm : Peer) (succeed : Bool) (err : String) :
    (pm.AddNewConnectionAttempt succeed err).Attempts = pm.Attempts + 1 ∧
      (pm.AddNewConnectionAttempt succeed err).Attempted = true ∧
      (pm.AddNewConnectionAttempt succeed err).Error =
        (if succeed then "None" else FilterError err) ∧
      (pm.AddNewConnectionAttempt succeed err).Succeed = (succeed || pm.Succeed) :=
  addNewConnectionAttempt_fields pm succeed err

/-- C4: on a fresh peer, `Attempted` starts false; after any `N`
recorded attempts `Attempts = N`; `Attempted` is true after the first
attempt; and no operation of the peer — including `ResetDynamicMetrics`,
which zeroes `Attempts` — ever reverts `Attempted` to false. -/
theorem attempts_attempted_invariant :
    (∀ id : String, (NewPeer id).Attempted = false) ∧
      (∀ (id : String) (calls : List (Bool × String)),
        (applyAttempts calls (NewPeer id)).Attempts = calls.length) ∧
      (∀ (id : String) (c : Bool × String) (calls : List (Bool × String)),
        (applyAttempts (c :: calls) (NewPeer id)).Attempted = true) ∧
      (∀ (pm : Peer) (ops : List PeerOp),
        pm.Attempted = true → (applyOps ops pm).Attempted = true) := by
  refine ⟨fun id => rfl, fun id calls => ?_, fun id c calls => ?_, fun pm ops h => ?_⟩
  · rw [applyAttempts_attempts]
    show 0 + calls.length = calls.length
    omega
  · exact applyAttempts_attempted_mono calls _
      (addNewConnectionAttempt_fields (NewPeer id) c.1 c.2).2.1
  · exact applyOps_attempted_mono ops pm h

/-- C4 witness: the invariant evaluated on a concrete run — two attempts
give `Attempts = 2`, and `Attempted` survives a `ResetDynamicMetrics`. -/
theorem attempts_attempted_invariant_witness :
    (applyAttempts [(true, ""), (false, "some error")] (NewPeer "w")).Attempts =
        [(true, ""), (false, "some error")].length ∧
      (applyOps [PeerOp.resetDynamicMetrics]
        (applyAttempts [(true, "")] (NewPeer "w"))).Attempted = true :=
  ⟨attempts_attempted_invariant.2.1 "w" [(true, ""), (false, "some error")],
    attempts_attempted_invariant.2.2.2 (applyAttempts [(true, "")] (NewPeer "w"))
      [PeerOp.resetDynamicMetrics]
      (attempts_attempted_invariant.2.2.1 "w" (true, "") [])⟩

/-- C5: `CountMessage` on any topic name other than the five recognized
topic strings fails with the `unknown topic name` error, and applying it
as an operation leaves the peer — in particular all counters and
`GetAllMessagesCount` — unchanged. -/
theorem countMessage_unknown_topic (pm : Peer) (topicName : String)
    (h1 : topicName ≠ pgossip.BeaconBlock)
    (h2 : topicName ≠ pgossip.BeaconAggregateProof)
    (h3 : topicName ≠ pgossip.VoluntaryExit)
    (h4 : topicName ≠ pgossip.ProposerSlashing)
    (h5 : topicName ≠ pgossip.AttesterSlashing) :
    pm.CountMessage topicName = .error ("unknown topic name: " ++ topicName) ∧
      PeerOp.apply pm (PeerOp.countMessage topicName) = pm ∧
      (PeerOp.apply pm (PeerOp.countMessage topicName)).GetAllMessagesCount =
        pm.GetAllMessagesCount := by
  have hG : GetMessageMetrics topicName = .error ("unknown topic name: " ++ topicName) := by
    simp [GetMessageMetrics, h1, h2, h3, h4, h5]
  have hC : pm.CountMessage topicName = .error ("unknown topic name: " ++ topicName) := by
    simp [Peer.CountMessage, hG]
  refine ⟨hC, ?_, ?_⟩ <;> simp [PeerOp.apply, hC]

/-- C5 witness: the unknown-topic behaviour at the concrete topic name
`"unknown-topic"` on a fresh peer. -/
theorem countMessage_unknown_topic_witness :
    (NewPeer "w").CountMessage "unknown-topic" =
        .error ("unknown topic name: " ++ "unknown-topic") ∧
      PeerOp.apply (NewPeer "w") (PeerOp.countMessage "unknown-topic") = NewPeer "w" ∧
      (PeerOp.apply (NewPeer "w") (PeerOp.countMessage "unknown-topic")).GetAllMessagesCount =
        (NewPeer "w").GetAllMessagesCount :=
  countMessage_unknown_topic (NewPeer "w") "unknown-topic"
    (by decide) (by decide) (by decide) (by decide) (by decide)

/-- C6: `CountMessage` on each of the five recognized topics increments
exactly the matching counter, leaving every other field unchanged (the
result is the record update of that one counter), and
`GetAllMessagesCount` is the sum of the five counters in every state. -/
theorem countMessage_increments_matching (pm : Peer) :
    pm.CountMessage pgossip.BeaconBlock =
        .ok { pm with BeaconBlock := pm.BeaconBlock.Increment } ∧
      pm.CountMessage pgossip.BeaconAggregateProof =
        .ok { pm with BeaconAggregateProof := pm.BeaconAggregateProof.Increment } ∧
      pm.CountMessage pgossip.VoluntaryExit =
        .ok { pm with VoluntaryExit := pm.VoluntaryExit.Increment } ∧
      pm.CountMessage pgossip.ProposerSlashing =
        .ok { pm with ProposerSlashing := pm.ProposerSlashing.Increment } ∧
      pm.CountMessage pgossip.AttesterSlashing =
        .ok { pm with AttesterSlashing := pm.AttesterSlashing.Increment } ∧
      pm.GetAllMessagesCount =
        pm.BeaconBlock.Count + pm.BeaconAggregateProof.Count + pm.VoluntaryExit.Count +
          pm.ProposerSlashing.Count + pm.AttesterSlashing.Count := by
  have hsum : pm.GetAllMessagesCount =
      pm.BeaconBlock.Count + pm.BeaconAggregateProof.Count + pm.VoluntaryExit.Count +
        pm.ProposerSlashing.Count + pm.AttesterSlashing.Count := by
    simp only [Peer.GetAllMessagesCount]; omega
  refine ⟨?_, ?_, ?_, ?_, ?_, hsum⟩ <;>
    simp [Peer.CountMessage, GetMessageMetrics, incrementTopic,
      pgossip.BeaconBlock, pgossip.BeaconAggregateProof, pgossip.VoluntaryExit,
      pgossip.ProposerSlashing, pgossip.AttesterSlashing]

/-- C7: `ResetDynamicMetrics` zeroes exactly `Attempts` and the five
topic counters; every one of the other 22 fields — in particular the
identity fields and both history sequences — is unchanged. -/
theorem resetDynamicMetrics_zeroes_exactly (pm : Peer) :
    (pm.ResetDynamicMetrics.Attempts = 0 ∧
      pm.ResetDynamicMetrics.BeaconBlock = NewMessageMetrics ∧
      pm.ResetDynamicMetrics.BeaconAggregateProof = NewMessageMetrics ∧
      pm.ResetDynamicMetrics.VoluntaryExit = NewMessageMetrics ∧
      pm.ResetDynamicMetrics.ProposerSlashing = NewMessageMetrics ∧
      pm.ResetDynamicMetrics.AttesterSlashing = NewMessageMetrics) ∧
      pm.ResetDynamicMetrics.PeerId = pm.PeerId ∧
      pm.ResetDynamicMetrics.NodeId = pm.NodeId ∧
      pm.ResetDynamicMetrics.UserAgent = pm.UserAgent ∧
      pm.ResetDynamicMetrics.ClientName = pm.ClientName ∧
      pm.ResetDynamicMetrics.ClientOS = pm.ClientOS ∧
      pm.ResetDynamicMetrics.ClientVersion = pm.ClientVersion ∧
      pm.ResetDynamicMetrics.Pubkey = pm.Pubkey ∧
      pm.ResetDynamicMetrics.Addrs = pm.Addrs ∧
      pm.ResetDynamicMetrics.Ip = pm.Ip ∧
      pm.ResetDynamicMetrics.Country = pm.Country ∧
      pm.ResetDynamicMetrics.City = pm.City ∧
      pm.ResetDynamicMetrics.Latency = pm.Latency ∧
      pm.ResetDynamicMetrics.ConnectedDirection = pm.ConnectedDirection ∧
      pm.ResetDynamicMetrics.IsConnected = pm.IsConnected ∧
      pm.ResetDynamicMetrics.Attempted = pm.Attempted ∧
      pm.ResetDynamicMetrics.Succeed = pm.Succeed ∧
      pm.ResetDynamicMetrics.Error = pm.Error ∧
      pm.ResetDynamicMetrics.ConnectionTimes = pm.ConnectionTimes ∧
      pm.ResetDynamicMetrics.DisconnectionTimes = pm.DisconnectionTimes ∧
      pm.ResetDynamicMetrics.MetadataRequest = pm.MetadataRequest ∧
      pm.ResetDynamicMetrics.MetadataSucceed = pm.MetadataSucceed ∧
      pm.ResetDynamicMetrics.LastExport = pm.LastExport := by
  and_intros <;> rfl

lemma millisecondsOf_eq_zero_of_small {d : Int} (h1 : -1000000 < d) (h2 : d < 1000000) :
    millisecondsOf d = 0 := by
  rcases le_or_lt 0 d with h0 | h0
  · exact Int.tdiv_eq_zero_of_lt h0 h2
  · have h3 : d.tdiv 1000000 = -((-d).tdiv 1000000) := by
      rw [← Int.neg_tdiv, neg_neg]
    rw [millisecondsOf, h3, Int.tdiv_eq_zero_of_lt (by omega) (by omega), neg_zero]

lemma amendedConnectionContribution_eq (conTime : Int) (ds : List Int) :
    amendedConnectionContribution conTime ds = connectionContribution conTime ds := by
  induction ds with
  | nil => rfl
  | cons d rest ih => simp [amendedConnectionContribution, connectionContribution, ih]

lemma specConnectionContribution_eq_of_whole_ms (conTime : Int) (ds : List Int)
    (h : ∀ d ∈ ds, ∃ k : Int, d - conTime = k * 1000000) :
    specConnectionContribution conTime ds = connectionContribution conTime ds := by
  induction ds with
  | nil => rfl
  | cons d rest ih =>
    obtain ⟨k, hk⟩ := h d (List.mem_cons_self d rest)
    have hms : millisecondsOf (d - conTime) = k := by
      rw [millisecondsOf, hk]
      exact Int.mul_tdiv_cancel k (by norm_num)
    have hrest : specConnectionContribution conTime rest = connectionContribution conTime rest :=
      ih fun x hx => h x (List.mem_cons_of_mem d hx)
    rcases le_or_lt 0 (d - conTime) with h0 | h0
    · have hpos : 0 ≤ millisecondsOf (d - conTime) := by rw [hms]; omega
      simp [specConnectionContribution, connectionContribution, h0, hpos]
    · have hneg : ¬ 0 ≤ millisecondsOf (d - conTime) := by rw [hms]; omega
      simp [specConnectionContribution, connectionContribution, not_le.mpr h0, hneg, hrest]

/-- The peer of the C1 counterexample: one connection at 0.5 ms (in
nanoseconds since epoch), one disconnection 0.5 ms BEFORE it, and a
second disconnection one minute after it. -/
def peerC1 : Peer :=
  { NewPeer "c1" with
    ConnectionTimes := [500000]
    DisconnectionTimes := [0, 60000500000] }

/-- C1 counterexample: the claim's rule pairs the connection with the
second disconnection (the first `d` with `d - c ≥ 0`), yielding one full
minute; the code instead accepts the FIRST disconnection, because the
negative difference `-0.5 ms` truncates to `0` milliseconds and the test
is on the truncation — so the code reports 0 connected minutes. -/
theorem connectedTime_firstmatch_counterexample :
    Peer.GetConnectedTime peerC1 = 0 ∧
      specGetConnectedTime peerC1 = 1 ∧
      specGetConnectedTime peerC1 ≠ Peer.GetConnectedTime peerC1 := by
  have hcode : totalConnectedMillis peerC1 = 0 := by decide
  have hspec : specConnectedMillis peerC1 = 60000 := by decide
  refine ⟨?_, ?_, ?_⟩
  · rw [Peer.GetConnectedTime, hcode]; norm_num
  · rw [specGetConnectedTime, hspec]; norm_num
  · rw [specGetConnectedTime, Peer.GetConnectedTime, hspec, hcode]; norm_num

/-- C1 (amended): `GetConnectedTime` follows the first-match rule with
the match test applied to the MILLISECOND-TRUNCATED difference — the
first `d` with `(d - c)` truncated toward zero to whole milliseconds
non-negative (i.e. `d - c > -1` ms) contributes that truncated
difference, the scan stopping there and a `d` being reusable across
multiple `c`.  On instants that are whole milliseconds apart this
coincides with the claim's `(d - c) ≥ 0` rule, and the claim's worked
example (connections `[0, 10]`, disconnections `[5, 8]`, in
milliseconds) yields exactly 5 ms, i.e. `5 / 60000` minutes. -/
theorem connectedTime_firstmatch_amended (pm : Peer) :
    Peer.GetConnectedTime pm = amendedGetConnectedTime pm ∧
      (∀ (conTime : Int) (ds : List Int),
        (∀ d ∈ ds, ∃ k : Int, d - conTime = k * 1000000) →
        specConnectionContribution conTime ds = connectionContribution conTime ds) ∧
      totalConnectedMillis
        { NewPeer "ex" with
          ConnectionTimes := [0, 10000000]
          DisconnectionTimes := [5000000, 8000000] } = 5 ∧
      Peer.GetConnectedTime
        { NewPeer "ex" with
          ConnectionTimes := [0, 10000000]
          DisconnectionTimes := [5000000, 8000000] } = 5 / 60000 := by
  have htot : ∀ q : Peer, amendedConnectedMillis q = totalConnectedMillis q := by
    intro q
    rw [amendedConnectedMillis, totalConnectedMillis]
    congr 1
    funext total conTime
    rw [amendedConnectionContribution_eq]
  have hex : totalConnectedMillis
      { NewPeer "ex" with
        ConnectionTimes := [0, 10000000]
        DisconnectionTimes := [5000000, 8000000] } = 5 := by decide
  refine ⟨?_, fun c ds h => specConnectionContribution_eq_of_whole_ms c ds h, hex, ?_⟩
  · rw [Peer.GetConnectedTime, amendedGetConnectedTime, htot]
  · rw [Peer.GetConnectedTime, hex]; norm_num

/-- C1 amended witness: the amended equivalence evaluated on the worked
example, and the whole-millisecond agreement instantiated at a concrete
pair of instants 2 ms apart. -/
theorem connectedTime_firstmatch_amended_witness :
    Peer.GetConnectedTime peerC1 = amendedGetConnectedTime peerC1 ∧
      specConnectionContribution 0 [2000000] = connectionContribution 0 [2000000] :=
  ⟨(connectedTime_firstmatch_amended peerC1).1,
    (connectedTime_firstmatch_amended peerC1).2.1 0 [2000000]
      (fun d hd => ⟨2, by simp at hd; omega⟩)⟩

/-- C9: the scale of `GetConnectedTime` — the returned value times
60 000 is the integer millisecond total (i.e. the total is divided by
60 000, milliseconds to minutes, with the division exact in this
model); each interval is truncated toward zero to whole milliseconds
(for non-negative `d`, `millisecondsOf d` is the floor of `d / 10^6`);
and a matched pair less than one millisecond apart (in either
direction) contributes exactly 0 and still stops the scan. -/
theorem connectedTime_millisecond_scale :
    (∀ pm : Peer, Peer.GetConnectedTime pm * 60000 = (totalConnectedMillis pm : ℚ)) ∧
      (∀ d : Int, 0 ≤ d →
        1000000 * millisecondsOf d ≤ d ∧ d < 1000000 * (millisecondsOf d + 1)) ∧
      (∀ (conTime discTime : Int) (rest : List Int),
        -1000000 < discTime - conTime → discTime - conTime < 1000000 →
        connectionContribution conTime (discTime :: rest) = 0) := by
  refine ⟨fun pm => ?_, fun d hd => ?_, fun c d rest h1 h2 => ?_⟩
  · rw [Peer.GetConnectedTime, div_mul_cancel₀]
    norm_num
  · rw [millisecondsOf, Int.tdiv_eq_ediv hd (by norm_num)]
    constructor <;> omega
  · have h0 : millisecondsOf (d - c) = 0 := millisecondsOf_eq_zero_of_small (by omega) (by omega)
    simp [connectionContribution, h0]

/-- C9 witness: the scale facts at concrete inputs — a peer with a
single 2.5 ms connection window reports `2 / 60000` minutes, the
truncation bounds hold at `d = 2500000` ns, and a 0.4 ms window
contributes 0. -/
theorem connectedTime_millisecond_scale_witness :
    Peer.GetConnectedTime
        { NewPeer "w9" with
          ConnectionTimes := [0]
          DisconnectionTimes := [2500000] } * 60000 =
      (totalConnectedMillis
        { NewPeer "w9" with
          ConnectionTimes := [0]
          DisconnectionTimes := [2500000] } : ℚ) ∧
      (1000000 * millisecondsOf 2500000 ≤ 2500000 ∧
        (2500000 : Int) < 1000000 * (millisecondsOf 2500000 + 1)) ∧
      connectionContribution 0 [400000] = 0 :=
  ⟨connectedTime_millisecond_scale.1 _,
    connectedTime_millisecond_scale.2.1 2500000 (by norm_num),
    connectedTime_millisecond_scale.2.2 0 400000 [] (by norm_num) (by norm_num)⟩

lemma digitChar_ne_comma : ∀ m, m < 10 → Nat.digitChar m ≠ ',' := by decide

lemma count_comma_toDigitsAux (fuel : Nat) : ∀ (n : Nat) (acc : List Char),
    (toDigitsAux fuel n acc).count ',' = acc.count ',' := by
  induction fuel with
  | zero => intro n acc; rfl
  | succ f ih =>
    intro n acc
    rw [toDigitsAux]
    by_cases h : n < 10
    · rw [if_pos h, List.count_cons]
      simp [digitChar_ne_comma n h]
    · rw [if_neg h, ih, List.count_cons]
      simp [digitChar_ne_comma (n % 10) (Nat.mod_lt n (by norm_num))]

lemma count_comma_formatUint (n : Nat) : (formatUint n).data.count ',' = 0 := by
  show (toDigitsAux (n + 1) n []).count ',' = 0
  rw [count_comma_toDigitsAux]
  rfl

lemma count_comma_formatBool (b : Bool) : (formatBool b).data.count ',' = 0 := by
  cases b <;> rfl

lemma count_comma_intRepr (i : Int) : (intRepr i).data.count ',' = 0 := by
  rw [intRepr]
  by_cases h : i < 0 <;>
    simp [h, List.count_append, count_comma_formatUint]

lemma count_comma_padTo3 (m : Nat) : (padTo3 m).data.count ',' = 0 := by
  rw [padTo3]
  by_cases h1 : m < 10
  · simp [h1, List.count_append, count_comma_formatUint]
  · by_cases h2 : m < 100 <;>
      simp [h1, h2, List.count_append, count_comma_formatUint]

lemma count_comma_sign (c : Prop) [Decidable c] :
    ((if c then "-" else "") : String).data.count ',' = 0 := by
  split <;> rfl

lemma count_comma_formatFixed3 (q : ℚ) : (formatFixed3 q).data.count ',' = 0 := by
  rw [formatFixed3]
  simp [List.count_append, count_comma_formatUint, count_comma_padTo3, count_comma_sign]

lemma count_comma_sprintFloat (q : ℚ) : (sprintFloat q).data.count ',' = 0 := by
  rw [sprintFloat]
  by_cases h : q.den = 1 <;>
    simp [h, count_comma_intRepr, count_comma_formatFixed3]

/-- C2: the export line is exactly the comma-join of the 27 field
renderings, in the documented order (the order of `csvFields`),
terminated by a single newline; the list has length 27 and booleans
render as the literal strings `true` / `false`. -/
theorem toCsvLine_structure :
    (∀ pm : Peer, (Peer.ToCsvLine pm).data =
        List.intercalate [','] ((csvFields pm).map String.data) ++ ['\n']) ∧
      (∀ pm : Peer, (csvFields pm).length = 27) ∧
      formatBool true = "true" ∧ formatBool false = "false" := by
  refine ⟨fun pm => ?_, fun pm => rfl, rfl, rfl⟩
  simp [Peer.ToCsvLine, csvFields, List.intercalate]

lemma splitComma_ne_nil : ∀ l : List Char, splitComma l ≠ [] := by
  intro l
  cases l with
  | nil => simp [splitComma]
  | cons c rest =>
    rw [splitComma]
    by_cases h : c = ','
    · simp [h]
    · simp only [if_neg h]
      cases hs : splitComma rest <;> simp

lemma splitComma_length (l : List Char) :
    (splitComma l).length = l.count ',' + 1 := by
  induction l with
  | nil => rfl
  | cons c rest ih =>
    rw [splitComma]
    by_cases h : c = ','
    · subst h
      rw [if_pos rfl]
      simp [List.count_cons, ih]
    · rw [if_neg h]
      cases hs : splitComma rest with
      | nil => exact absurd hs (splitComma_ne_nil rest)
      | cons hd tl =>
        rw [hs] at ih
        simp only [List.length_cons, List.count_cons] at ih ⊢
        simp [h, ih]

lemma count_comma_toCsvLine (pm : Peer) :
    (Peer.ToCsvLine pm).data.count ',' = 26 + stringFieldCommas pm := by
  simp only [Peer.ToCsvLine, String.data_append, List.count_append,
    count_comma_formatUint, count_comma_formatBool, count_comma_sprintFloat,
    count_comma_formatFixed3, stringFieldCommas]
  have h1 : (",").data.count ',' = 1 := rfl
  have h2 : ("\n").data.count ',' = 0 := rfl
  rw [h1, h2]
  omega

/-- C10: `ToCsvLine` does no quoting or escaping — splitting the line on
commas yields `27 + k` pieces, where `k` is the total number of commas
occurring inside the eleven verbatim string fields; in particular the
line splits into exactly 27 fields precisely when those fields are
comma-free. -/
theorem toCsvLine_no_escaping (pm : Peer) :
    (splitComma (Peer.ToCsvLine pm).data).length = 27 + stringFieldCommas pm := by
  rw [splitComma_length, count_comma_toCsvLine]
  omega

/-- C8: both event queues are created with the default fixed capacity
`ConnNotChannSize = 200`; `RecConnEvent` / `RecIdentEvent` have no
transition (the producer blocks) when the respective queue holds 200
events; a receive takes the oldest element from the head (strict FIFO)
while a send appends at the tail; and on a full 200-element queue, after
exactly one dequeue, exactly one blocked enqueue completes — the queue is
full again and a further enqueue has no transition. -/
theorem eventQueues_backpressure_fifo :
    (ConnNotChannSize = 200 ∧
      ∀ E I : Type, (NewBasicLibp2pEth2Host E I).connEventNotChannel.cap = 200 ∧
        (NewBasicLibp2pEth2Host E I).identNotChannel.cap = 200 ∧
        (NewBasicLibp2pEth2Host E I).connEventNotChannel.buf = [] ∧
        (NewBasicLibp2pEth2Host E I).identNotChannel.buf = []) ∧
      (∀ (E I : Type) (b : BasicLibp2pHost E I) (e : E),
        b.connEventNotChannel.cap = 200 → b.connEventNotChannel.buf.length = 200 →
        RecConnEvent b e = none) ∧
      (∀ (E I : Type) (b : BasicLibp2pHost E I) (i : I),
        b.identNotChannel.cap = 200 → b.identNotChannel.buf.length = 200 →
        RecIdentEvent b i = none) ∧
      (∀ (α : Type) (c : BoundedChan α) (x : α) (c2 : BoundedChan α),
        c.recv = some (x, c2) → c.buf = x :: c2.buf ∧ c2.cap = c.cap) ∧
      (∀ (α : Type) (c : BoundedChan α) (a : α) (c2 : BoundedChan α),
        c.send a = some c2 → c2.buf = c.buf ++ [a] ∧ c2.cap = c.cap) ∧
      (∀ (α : Type) (c : BoundedChan α) (x : α) (c2 : BoundedChan α) (a a2 : α),
        c.cap = 200 → c.buf.length = 200 → c.recv = some (x, c2) →
        ∃ c3 : BoundedChan α, c2.send a = some c3 ∧ c3.send a2 = none) := by
  refine ⟨⟨rfl, fun E I => ⟨rfl, rfl, rfl, rfl⟩⟩, ?_, ?_, ?_, ?_, ?_⟩
  · intro E I b e hcap hlen
    rw [RecConnEvent, BoundedChan.send, hcap, hlen]
    simp
  · intro E I b i hcap hlen
    rw [RecIdentEvent, BoundedChan.send, hcap, hlen]
    simp
  · intro α c x c2 h
    rw [BoundedChan.recv] at h
    cases hbuf : c.buf with
    | nil => rw [hbuf] at h; exact absurd h (by simp)
    | cons y rest =>
      rw [hbuf] at h
      simp only [Option.some.injEq, Prod.mk.injEq] at h
      obtain ⟨hx, hc2⟩ := h
      subst hx
      constructor
      · rw [← hc2]
      · rw [← hc2]
  · intro α c a c2 h
    rw [BoundedChan.send] at h
    by_cases hlt : c.buf.length < c.cap
    · rw [if_pos hlt] at h
      simp only [Option.some.injEq] at h
      subst h
      exact ⟨rfl, rfl⟩
    · rw [if_neg hlt] at h
      exact absurd h (by simp)
  · intro α c x c2 a a2 hcap hlen hrecv
    rw [BoundedChan.recv] at hrecv
    cases hbuf : c.buf with
    | nil => rw [hbuf] at hrecv; exact absurd hrecv (by simp)
    | cons y rest =>
      rw [hbuf] at hrecv
      simp only [Option.some.injEq, Prod.mk.injEq] at hrecv
      obtain ⟨hx, hc2⟩ := hrecv
      have hrest : rest.length = 199 := by
        rw [hbuf] at hlen
        simpa using hlen
      refine ⟨{ cap := c.cap, buf := rest ++ [a] }, ?_, ?_⟩
      · rw [← hc2, BoundedChan.send]
        rw [if_pos (by rw [hcap, hrest]; omega)]
      · rw [BoundedChan.send]
        rw [if_neg (by simp [hcap, hrest])]

/-- C8 witness: the backpressure cycle on a concrete full queue of 200
events — the 201st enqueue has no transition; after one dequeue the
oldest event comes out first, one blocked enqueue completes, and the next
enqueue blocks again. -/
theorem eventQueues_backpressure_fifo_witness :
    RecConnEvent
        (⟨⟨200, List.replicate 200 0⟩, ⟨200, []⟩⟩ : BasicLibp2pHost Nat Nat) 7 = none ∧
      (⟨200, [3, 4]⟩ : BoundedChan Nat).buf = 3 :: (⟨200, [4]⟩ : BoundedChan Nat).buf ∧
      ∃ c3 : BoundedChan Nat,
        (⟨200, List.replicate 199 0⟩ : BoundedChan Nat).send 7 = some c3 ∧
          c3.send 8 = none :=
  ⟨eventQueues_backpressure_fifo.2.1 Nat Nat
      ⟨⟨200, List.replicate 200 0⟩, ⟨200, []⟩⟩ 7 rfl
      (by rw [show (⟨⟨200, List.replicate 200 0⟩, ⟨200, []⟩⟩ :
          BasicLibp2pHost Nat Nat).connEventNotChannel.buf = List.replicate 200 0 from rfl,
        List.length_replicate]),
    (eventQueues_backpressure_fifo.2.2.2.1 Nat ⟨200, [3, 4]⟩ 3 ⟨200, [4]⟩ rfl).1,
    eventQueues_backpressure_fifo.2.2.2.2.2 Nat
      ⟨200, 0 :: List.replicate 199 0⟩ 0 ⟨200, List.replicate 199 0⟩ 7 8
      rfl
      (by rw [show (⟨200, 0 :: List.replicate 199 0⟩ : BoundedChan Nat).buf =
          0 :: List.replicate 199 0 from rfl, List.length_cons, List.length_replicate])
      rfl⟩

end Armiarma
